import Mathlib

/-!
# Verification of the dynabuf conversion core

A shallow embedding of the `dynabuf` Go package, which converts protobuf
messages (and slices of them) to DynamoDB attribute-value maps and back,
using JSON as the logical intermediary.  The external codecs
(`protojson`, `encoding/json`, `attributevalue`) are modelled as abstract
fallible functions collected in a `Codec` structure; the control flow of
`Marshal`, `Unmarshal`, the helper functions and `Updates` is translated
from the Go source line by line.
-/

namespace Dynabuf

/-- The six sentinel error values declared in the package (`Error` strings). -/
inductive Sentinel where
  | failedToMarshal
  | failedToMarshalIntermediary
  | failedToUnmarshalIntermediary
  | failedToUnmarshal
  | invalidInput
  | invalidOutput
deriving DecidableEq, BEq, Repr

/-- Go error values as produced by the package: sentinels, opaque external
codec errors, and the `fmt.Errorf` wrap shapes used in the source
(`%w: %w` with optional plain text, `%w: %w: %w`, `%w: at index %d: %w`). -/
inductive GoError where
  | sentinel (s : Sentinel)
  | external (msg : String)
  | wrap2 (outer inner : GoError) (msg : String)
  | wrap3 (a b c : GoError)
  | wrapIdx (outer : GoError) (i : Nat) (inner : GoError)
deriving DecidableEq, BEq, Repr

/-- `errors.Is`: the target is found at the top or in any `%w`-wrapped part. -/
def errIs : GoError → GoError → Bool
  | .sentinel s, t => GoError.sentinel s == t
  | .external m, t => GoError.external m == t
  | .wrap2 a b m, t => (GoError.wrap2 a b m == t) || errIs a t || errIs b t
  | .wrap3 a b c, t =>
      (GoError.wrap3 a b c == t) || errIs a t || errIs b t || errIs c t
  | .wrapIdx a i b, t => (GoError.wrapIdx a i b == t) || errIs a t || errIs b t

/-- DynamoDB attribute values (`types.AttributeValue` member variants). -/
inductive AttributeValue where
  | S (s : String)
  | N (n : String)
  | BOOL (b : Bool)
  | NULL (b : Bool)
  | L (l : List AttributeValue)
  | M (m : List (String × AttributeValue))

/-- `map[string]types.AttributeValue`, as a key-unique association list. -/
def AttrMap := List (String × AttributeValue)

/-- A dynamically typed JSON-decodable Go value (`any` after json decoding). -/
inductive JsonVal where
  | str (s : String)
  | num (n : Int)
  | boolean (b : Bool)
  | null
  | arr (xs : List JsonVal)
  | obj (fields : List (String × JsonVal))

/-- `map[string]any`: the canonical intermediate document. -/
def Doc := List (String × JsonVal)

/-- A protobuf message value: its concrete Go type name (e.g. `*example.User`)
and an abstract identifier for its field content. -/
structure ProtoMsg where
  typeName : String
  content : Nat
deriving DecidableEq, Repr

/-- The reflection-relevant data of a slice's static element type:
whether its kind is `reflect.Ptr`, whether a freshly constructed zero
value of the pointee implements `proto.Message`, the pointee type name
(used to construct fresh elements) and the element type name. -/
structure SliceElemType where
  kindIsPtr : Bool
  pointeeZeroIsProto : Bool
  pointeeName : String
  name : String
deriving DecidableEq, Repr

/-- A dynamically typed Go value passed to `Marshal`: a value asserting to
`proto.Message`, a non-slice value that does not, or a slice with its
static element type and its elements. -/
inductive GoVal where
  | msg (m : ProtoMsg)
  | nonMsg (typeName : String)
  | slice (elem : SliceElemType) (items : List GoVal)

/-- The `%T` name of a Go value. -/
def GoVal.goType : GoVal → String
  | .msg m => m.typeName
  | .nonMsg tn => tn
  | .slice elem _ => "[]" ++ elem.name

/-- `isProtoMessage`: type assertion of the value to `proto.Message`. -/
def isProtoMessage : GoVal → Bool
  | .msg _ => true
  | _ => false

/-- `isProtoSlice` on a slice value: the element type has kind `Ptr` and a
zero value of its pointee implements `proto.Message` (a static-type probe,
independent of the slice's contents). -/
def isProtoSliceElem (e : SliceElemType) : Bool :=
  e.kindIsPtr && e.pointeeZeroIsProto

/-- JSON bytes flowing between the pipeline stages: either the text of a
non-array JSON value, or a JSON array split into the raw messages of its
elements (`json.Unmarshal` into `[]json.RawMessage` recovers exactly those). -/
inductive IntermediateBytes where
  | blob (s : String)
  | arr (elems : List String)

/-- The full byte text of intermediate JSON bytes. -/
def IntermediateBytes.text : IntermediateBytes → String
  | .blob s => s
  | .arr es => "[" ++ String.intercalate "," es ++ "]"

/-- The external codecs consumed by the core, as abstract fallible functions:
`protojson.Marshal`, `json.Unmarshal` into `map[string]any`,
`attributevalue.MarshalMap`, `attributevalue.Unmarshal` of a single value,
`attributevalue.UnmarshalMap`, `json.Marshal` of an `any` value,
`json.Marshal` of a `map[string]any`, and `protojson.Unmarshal` into a fresh
message of a given concrete type. -/
structure Codec where
  protojsonMarshal : ProtoMsg → Except GoError String
  jsonUnmarshalMap : String → Except GoError Doc
  avMarshalMap : Doc → Except GoError AttrMap
  avUnmarshalVal : AttributeValue → Except GoError JsonVal
  avUnmarshalMap : AttrMap → Except GoError Doc
  jsonMarshalVal : JsonVal → Except GoError IntermediateBytes
  jsonMarshalDoc : Doc → Except GoError String
  protojsonUnmarshal : String → String → Except GoError ProtoMsg

/-- `marshalProtoMessage`: protojson-marshal the message, json-unmarshal the
bytes into the intermediary map, attributevalue-marshal that map; each error
is wrapped exactly as in the source. -/
def marshalProtoMessage (c : Codec) (v : GoVal) : Except GoError AttrMap :=
  match v with
  | .msg m =>
    match c.protojsonMarshal m with
    | .error e => .error (.wrap2 (.sentinel .failedToMarshal) e "")
    | .ok b =>
      match c.jsonUnmarshalMap b with
      | .error e =>
          .error (.wrap3 (.sentinel .failedToMarshal)
            (.sentinel .failedToUnmarshalIntermediary) e)
      | .ok intermediary =>
        match c.avMarshalMap intermediary with
        | .error e => .error (.wrap2 (.sentinel .failedToMarshal) e "")
        | .ok av => .ok av
  | v' =>
      .error (.wrap2 (.sentinel .failedToMarshal)
        (.sentinel .invalidInput) v'.goType)

/-- The element loop of `marshalProtoSlice`, carrying the running index. -/
def marshalSliceLoop (c : Codec) (i : Nat) :
    List GoVal → Except GoError (List AttrMap)
  | [] => .ok []
  | item :: rest =>
    match marshalProtoMessage c item with
    | .error e => .error (.wrapIdx (.sentinel .failedToMarshal) i e)
    | .ok av =>
      match marshalSliceLoop c (i + 1) rest with
      | .error e => .error e
      | .ok avs => .ok (av :: avs)

/-- `marshalProtoSlice`: reject non-slices and slices whose static element
type fails the proto probe, then marshal each element in order, wrapping an
element failure with its index and returning no partial result. -/
def marshalProtoSlice (c : Codec) (v : GoVal) : Except GoError (List AttrMap) :=
  match v with
  | .slice elem items =>
    if isProtoSliceElem elem then
      marshalSliceLoop c 0 items
    else
      .error (.wrap2 (.sentinel .failedToMarshal)
        (.sentinel .invalidInput) (GoVal.goType (.slice elem items)))
  | v' =>
      .error (.wrap2 (.sentinel .failedToMarshal)
        (.sentinel .invalidInput) v'.goType)

/-- The `any` returned by `Marshal`: one attribute map or a slice of them. -/
inductive MarshalResult where
  | one (m : AttrMap)
  | many (ms : List AttrMap)

/-- `Marshal`: dispatch on `reflect.Kind == Slice`. -/
def Marshal (c : Codec) (v : GoVal) : Except GoError MarshalResult :=
  match v with
  | .slice elem items =>
    match marshalProtoSlice c (.slice elem items) with
    | .error e => .error e
    | .ok ms => .ok (.many ms)
  | v' =>
    match marshalProtoMessage c v' with
    | .error e => .error e
    | .ok m => .ok (.one m)

/-- The runtime forms the `Unmarshal` input switch distinguishes: a single
`types.AttributeValue`, a `map[string]types.AttributeValue`, a
`[]map[string]types.AttributeValue`, or any other type. -/
inductive AttrInput where
  | single (a : AttributeValue)
  | map (m : AttrMap)
  | mapSlice (ms : List AttrMap)
  | other (typeName : String)

/-- The destination argument of `Unmarshal`: not a pointer; a pointer to a
non-slice whose value does not assert to `proto.Message`; a pointer that is a
`proto.Message` holding a message; or a pointer to a slice with its static
element type and current elements. -/
inductive GoDest where
  | nonPtr (typeName : String)
  | ptrOther (typeName : String)
  | ptrMsg (m : ProtoMsg)
  | ptrSlice (elem : SliceElemType) (items : List ProtoMsg)

/-- The `%T` name of a destination value. -/
def GoDest.goType : GoDest → String
  | .nonPtr tn => tn
  | .ptrOther tn => tn
  | .ptrMsg m => m.typeName
  | .ptrSlice elem _ => "*[]" ++ elem.name

/-- The dynamically typed intermediate value built by the input switch:
an arbitrary decoded value, one document, or a slice of documents. -/
inductive Intermediate where
  | val (j : JsonVal)
  | doc (d : Doc)
  | docs (ds : List Doc)

/-- The per-element loop of the `[]map[string]types.AttributeValue` case:
`attributevalue.UnmarshalMap` each map, wrapping a failure as in the source. -/
def avMapSliceLoop (c : Codec) : List AttrMap → Except GoError (List Doc)
  | [] => .ok []
  | m :: ms =>
    match c.avUnmarshalMap m with
    | .error e =>
        .error (.wrap2 (.sentinel .failedToUnmarshal) e
          "failed to unmarshal DynamoDB attribute map")
    | .ok d =>
      match avMapSliceLoop c ms with
      | .error e => .error e
      | .ok ds => .ok (d :: ds)

/-- The input type switch of `Unmarshal`: build the intermediate value from
the attribute input, or fail with the errors of the source (the
`[]map` case additionally requires a slice-shaped destination; an
unsupported input type is `InvalidOutput`).  `destTn` is the `%T` of the
destination, which the source interpolates into these errors. -/
def avToIntermediate (c : Codec) (av : AttrInput) (isSlice : Bool)
    (destTn : String) : Except GoError Intermediate :=
  match av with
  | .single a =>
    match c.avUnmarshalVal a with
    | .error e =>
        .error (.wrap2 (.sentinel .failedToUnmarshal) e
          "failed to unmarshal DynamoDB attribute value")
    | .ok j => .ok (.val j)
  | .map m =>
    match c.avUnmarshalMap m with
    | .error e =>
        .error (.wrap2 (.sentinel .failedToUnmarshal) e
          "failed to unmarshal DynamoDB attribute map")
    | .ok d => .ok (.doc d)
  | .mapSlice ms =>
    if isSlice then
      match avMapSliceLoop c ms with
      | .error e => .error e
      | .ok ds => .ok (.docs ds)
    else
      .error (.wrap2 (.sentinel .failedToUnmarshal)
        (.sentinel .invalidOutput) destTn)
  | .other _ =>
      .error (.wrap2 (.sentinel .failedToUnmarshal)
        (.sentinel .invalidOutput) ("unsupported type: " ++ destTn))

/-- Element-wise error-propagating map, for `json.Marshal` of a document
slice (the JSON of a `[]map[string]any` is the array of its elements'
JSON, and it fails on the first unencodable element). -/
def mapExcept (f : Doc → Except GoError String) :
    List Doc → Except GoError (List String)
  | [] => .ok []
  | d :: ds =>
    match f d with
    | .error e => .error e
    | .ok s =>
      match mapExcept f ds with
      | .error e => .error e
      | .ok ss => .ok (s :: ss)

/-- `json.Marshal(intermediateValue)`: a map marshals to a (non-array) JSON
object; a slice of maps marshals to the array of the per-element objects. -/
def jsonMarshalIntermediate (c : Codec) :
    Intermediate → Except GoError IntermediateBytes
  | .val j => c.jsonMarshalVal j
  | .doc d =>
    match c.jsonMarshalDoc d with
    | .error e => .error e
    | .ok s => .ok (.blob s)
  | .docs ds =>
    match mapExcept c.jsonMarshalDoc ds with
    | .error e => .error e
    | .ok ss => .ok (.arr ss)

/-- `json.Unmarshal(data, &jsonSlice)` for `[]json.RawMessage`: a JSON array
splits into its element raw messages; a non-array JSON value is an error. -/
def jsonUnmarshalRawSlice : IntermediateBytes → Except GoError (List String)
  | .arr es => .ok es
  | .blob _ =>
      .error (.external
        "json: cannot unmarshal object into Go value of type []json.RawMessage")

/-- The append loop of `unmarshalJSONToProtoSlice`: decode each raw message
into a fresh element of the pointee type and append it; a failure stops the
loop, keeping the elements appended so far. -/
def protoSliceLoop (c : Codec) (tn : String) (acc : List ProtoMsg) :
    List String → List ProtoMsg × Option GoError
  | [] => (acc, none)
  | r :: rest =>
    match c.protojsonUnmarshal r tn with
    | .error e => (acc, some e)
    | .ok m => protoSliceLoop c tn (acc ++ [m]) rest

/-- `unmarshalJSONToProtoSlice`: split the JSON into raw messages, then
decode and append element-wise; returns the final slice contents and the
first error, unwrapped (the caller wraps it). -/
def unmarshalJSONToProtoSlice (c : Codec) (elem : SliceElemType)
    (init : List ProtoMsg) (b : IntermediateBytes) :
    List ProtoMsg × Option GoError :=
  match jsonUnmarshalRawSlice b with
  | .error e => (init, some e)
  | .ok raws => protoSliceLoop c elem.pointeeName init raws

/-- `Unmarshal`: returns the final state of the destination together with
the error, mirroring the source's pointer/shape checks, input switch,
`json.Marshal` of the intermediate, and shape-directed final decode. -/
def Unmarshal (c : Codec) (av : AttrInput) (v : GoDest) :
    GoDest × Option GoError :=
  match v with
  | .nonPtr tn =>
      (v, some (.wrap2 (.sentinel .failedToUnmarshal)
        (.sentinel .invalidOutput) tn))
  | .ptrOther tn =>
      (v, some (.wrap2 (.sentinel .failedToUnmarshal)
        (.sentinel .invalidOutput) tn))
  | .ptrMsg m =>
    match avToIntermediate c av false m.typeName with
    | .error e => (v, some e)
    | .ok inter =>
      match jsonMarshalIntermediate c inter with
      | .error e =>
          (v, some (.wrap3 (.sentinel .failedToUnmarshal)
            (.sentinel .failedToMarshalIntermediary) e))
      | .ok ib =>
        match c.protojsonUnmarshal ib.text m.typeName with
        | .error e =>
            (v, some (.wrap3 (.sentinel .failedToUnmarshal)
              (.sentinel .failedToUnmarshalIntermediary) e))
        | .ok m2 => (.ptrMsg m2, none)
  | .ptrSlice elem items =>
    if isProtoSliceElem elem then
      match avToIntermediate c av true (GoDest.goType (.ptrSlice elem items)) with
      | .error e => (v, some e)
      | .ok inter =>
        match jsonMarshalIntermediate c inter with
        | .error e =>
            (v, some (.wrap3 (.sentinel .failedToUnmarshal)
              (.sentinel .failedToMarshalIntermediary) e))
        | .ok ib =>
          match unmarshalJSONToProtoSlice c elem items ib with
          | (items2, some e) =>
              (.ptrSlice elem items2,
                some (.wrap3 (.sentinel .failedToUnmarshal)
                  (.sentinel .failedToUnmarshalIntermediary) e))
          | (items2, none) => (.ptrSlice elem items2, none)
    else
      (v, some (.wrap2 (.sentinel .failedToUnmarshal)
        (.sentinel .invalidOutput) (GoDest.goType (.ptrSlice elem items))))

/-- `types.AttributeAction` values. -/
inductive AttributeAction where
  | Put
  | Add
  | Delete
deriving DecidableEq, Repr

/-- `types.AttributeValueUpdate`: a value together with an action. -/
structure AttributeValueUpdate where
  Value : AttributeValue
  Action : AttributeAction

/-- `Updates`: translate an attribute-value map to an update map, tagging
every entry's value with `AttributeActionPut`. -/
def Updates (mav : List (String × AttributeValue)) :
    List (String × AttributeValueUpdate) :=
  mav.map fun kv => (kv.1, { Value := kv.2, Action := .Put })

/-- The encode half of a lossless canonical mapping for a record `r`: the
three marshal stages succeed, producing the attribute map `m`. -/
def encodesTo (c : Codec) (r : ProtoMsg) (m : AttrMap) : Prop :=
  ∃ b d, c.protojsonMarshal r = .ok b ∧ c.jsonUnmarshalMap b = .ok d ∧
    c.avMarshalMap d = .ok m

/-- The decode half: the three unmarshal stages succeed on `m`, reproducing
`r` when decoding into a destination of concrete type `tn`. -/
def decodesTo (c : Codec) (tn : String) (m : AttrMap) (r : ProtoMsg) : Prop :=
  ∃ d s, c.avUnmarshalMap m = .ok d ∧ c.jsonMarshalDoc d = .ok s ∧
    c.protojsonUnmarshal s tn = .ok r

/-- The canonical-document mapping is lossless for `r` (through attribute
map `m`, into a destination of type `tn`). -/
def losslessFor (c : Codec) (tn : String) (r : ProtoMsg) (m : AttrMap) : Prop :=
  encodesTo c r m ∧ decodesTo c tn m r

/-- A destination that passes the pointer and shape checks of `Unmarshal`:
a pointer to a proto message, or a pointer to a slice of proto pointers. -/
def validDest : GoDest → Bool
  | .ptrMsg _ => true
  | .ptrSlice elem _ => isProtoSliceElem elem
  | _ => false

/-- A concrete record used to instantiate the theorems. -/
def wMsg : ProtoMsg := ⟨"*example.User", 1⟩

/-- A fresh destination record of the same concrete type. -/
def wMsg0 : ProtoMsg := ⟨"*example.User", 0⟩

/-- A second record of a different concrete type. -/
def wMsgB : ProtoMsg := ⟨"*example.Admin", 2⟩

/-- A concrete canonical document. -/
def wDoc : Doc := [("bar", .str "hello world")]

/-- A concrete attribute map. -/
def wMap : AttrMap := [("bar", .S "hello world")]

/-- The element type of a `[]*example.User` slice. -/
def wElem : SliceElemType := ⟨true, true, "example.User", "*example.User"⟩

/-- The element type of a `[]proto.Message` slice: its kind is `Interface`,
not `Ptr`, even though every element may hold a proto message. -/
def wIfaceElem : SliceElemType :=
  ⟨false, true, "proto.Message", "proto.Message"⟩

/-- The element type of a `[]int` slice. -/
def wIntElem : SliceElemType := ⟨false, false, "int", "int"⟩

/-- A concrete codec environment on which the record `wMsg` round-trips
through the document `wDoc` and the attribute map `wMap`. -/
def wCodec : Codec where
  protojsonMarshal := fun _ => .ok "objA"
  jsonUnmarshalMap := fun _ => .ok wDoc
  avMarshalMap := fun _ => .ok wMap
  avUnmarshalVal := fun _ => .ok .null
  avUnmarshalMap := fun _ => .ok wDoc
  jsonMarshalVal := fun _ => .ok (.blob "null")
  jsonMarshalDoc := fun _ => .ok "objA"
  protojsonUnmarshal := fun _ _ => .ok wMsg

/-- A codec whose `json.Unmarshal` into the intermediary map always fails. -/
def jfCodec : Codec :=
  { wCodec with jsonUnmarshalMap := fun _ => .error (.external "invalid character") }

/-- A codec whose `protojson.Marshal` fails exactly on `wMsgB`. -/
def pfCodec : Codec :=
  { wCodec with
    protojsonMarshal := fun m =>
      if m.content == wMsgB.content then .error (.external "proto: boom")
      else .ok "objA" }

/-- The error produced by `Marshal` on `jfCodec` at the intermediary stage. -/
def cxErr2 : GoError :=
  .wrap3 (.sentinel .failedToMarshal)
    (.sentinel .failedToUnmarshalIntermediary) (.external "invalid character")

/-- The error produced by `Unmarshal` when a single attribute map is decoded
into a slice-shaped destination on `wCodec`. -/
def cxErr3 : GoError :=
  .wrap3 (.sentinel .failedToUnmarshal)
    (.sentinel .failedToUnmarshalIntermediary)
    (.external
      "json: cannot unmarshal object into Go value of type []json.RawMessage")

/-- Claim C6: `Updates` is a pure total function whose output has exactly
the key set of its input, and whose entry for each key holds the input
value for that key tagged with the `Put` ("set this value") action. -/
theorem updates_key_set_and_values (mav : List (String × AttributeValue)) :
    (Updates mav).map Prod.fst = mav.map Prod.fst ∧
    ∀ k : String, (Updates mav).lookup k =
      (mav.lookup k).map (fun v => ⟨v, .Put⟩) := by
  refine ⟨by simp [Updates], ?_⟩
  intro k
  induction mav with
  | nil => rfl
  | cons kv rest ih =>
    simp only [Updates, List.map_cons, List.lookup] at *
    cases h : k == kv.1
    · simpa [h] using ih
    · simp [h]

/-- Claim C5: marshaling a value that is neither a proto message nor a
slice of proto-message pointers yields an error classified `InvalidInput`,
and unmarshaling into a destination that is not a pointer, or is a pointer
to neither a proto message nor a slice of proto-message pointers, yields an
error classified `InvalidOutput`. -/
theorem marshal_invalid_input_unmarshal_invalid_output
    (c : Codec) (tn : String) (elem : SliceElemType) (items : List GoVal)
    (av : AttrInput) (d : GoDest)
    (hElem : isProtoSliceElem elem = false)
    (hd : validDest d = false) :
    (∃ e, Marshal c (.nonMsg tn) = .error e ∧
      errIs e (.sentinel .invalidInput) = true) ∧
    (∃ e, Marshal c (.slice elem items) = .error e ∧
      errIs e (.sentinel .invalidInput) = true) ∧
    (∃ e, Unmarshal c av d = (d, some e) ∧
      errIs e (.sentinel .invalidOutput) = true) := by
  refine ⟨⟨_, rfl, rfl⟩,
    ⟨.wrap2 (.sentinel .failedToMarshal) (.sentinel .invalidInput)
      ("[]" ++ elem.name), ?_, rfl⟩, ?_⟩
  · simp [Marshal, marshalProtoSlice, hElem, GoVal.goType]
  · cases d with
    | nonPtr tn2 => exact ⟨_, rfl, rfl⟩
    | ptrOther tn2 => exact ⟨_, rfl, rfl⟩
    | ptrMsg m => simp [validDest] at hd
    | ptrSlice e2 it2 =>
      simp only [validDest] at hd
      refine ⟨.wrap2 (.sentinel .failedToUnmarshal) (.sentinel .invalidOutput)
        ("*[]" ++ e2.name), ?_, rfl⟩
      simp [Unmarshal, hd, GoDest.goType]

/-- Witness for claim C5 at concrete inputs: a plain `int`, a `[]int`
slice, and a non-pointer destination. -/
theorem marshal_invalid_input_unmarshal_invalid_output_witness :
    isProtoSliceElem wIntElem = false ∧ validDest (.nonPtr "int") = false ∧
    ((∃ e, Marshal wCodec (.nonMsg "int") = .error e ∧
      errIs e (.sentinel .invalidInput) = true) ∧
    (∃ e, Marshal wCodec (.slice wIntElem []) = .error e ∧
      errIs e (.sentinel .invalidInput) = true) ∧
    (∃ e, Unmarshal wCodec (.map wMap) (.nonPtr "int") = (.nonPtr "int", some e) ∧
      errIs e (.sentinel .invalidOutput) = true)) :=
  ⟨rfl, rfl, marshal_invalid_input_unmarshal_invalid_output wCodec "int"
    wIntElem [] (.map wMap) (.nonPtr "int") rfl rfl⟩

/-- Claim C10: for an attribute input of any runtime type other than the
three handled forms, given a valid destination, `Unmarshal` returns an
error wrapping both `FailedToUnmarshal` and `InvalidOutput` and leaves the
destination unchanged. -/
theorem unmarshal_unsupported_input_rejected (c : Codec) (tn : String)
    (d : GoDest) (hd : validDest d = true) :
    ∃ e, Unmarshal c (.other tn) d = (d, some e) ∧
      errIs e (.sentinel .failedToUnmarshal) = true ∧
      errIs e (.sentinel .invalidOutput) = true := by
  cases d with
  | nonPtr tn2 => simp [validDest] at hd
  | ptrOther tn2 => simp [validDest] at hd
  | ptrMsg m => exact ⟨_, rfl, rfl, rfl⟩
  | ptrSlice e2 it2 =>
    simp only [validDest] at hd
    refine ⟨.wrap2 (.sentinel .failedToUnmarshal) (.sentinel .invalidOutput)
      ("unsupported type: " ++ ("*[]" ++ e2.name)), ?_, rfl, rfl⟩
    simp [Unmarshal, hd, avToIntermediate, GoDest.goType]

/-- Witness for claim C10: a `chan int` attribute input with a pointer to
a proto message as destination. -/
theorem unmarshal_unsupported_input_rejected_witness :
    validDest (.ptrMsg wMsg0) = true ∧
    ∃ e, Unmarshal wCodec (.other "chan int") (.ptrMsg wMsg0) =
        (.ptrMsg wMsg0, some e) ∧
      errIs e (.sentinel .failedToUnmarshal) = true ∧
      errIs e (.sentinel .invalidOutput) = true :=
  ⟨rfl, unmarshal_unsupported_input_rejected wCodec "chan int" (.ptrMsg wMsg0) rfl⟩

/-- Claim C8: collection classification depends only on the slice's static
element type: for an element type failing the zero-value probe, the result
of `Marshal` is the same for every codec and every list of elements — no
element is ever converted — and it is an `InvalidInput` error. -/
theorem marshal_slice_probe_is_static (c c2 : Codec) (elem : SliceElemType)
    (items items2 : List GoVal) (h : isProtoSliceElem elem = false) :
    Marshal c (.slice elem items) = Marshal c2 (.slice elem items2) ∧
    ∃ e, Marshal c (.slice elem items) = .error e ∧
      errIs e (.sentinel .invalidInput) = true := by
  have hv : ∀ (c3 : Codec) (its : List GoVal),
      Marshal c3 (.slice elem its) =
        .error (.wrap2 (.sentinel .failedToMarshal) (.sentinel .invalidInput)
          ("[]" ++ elem.name)) := by
    intro c3 its
    simp [Marshal, marshalProtoSlice, h, GoVal.goType]
  exact ⟨(hv c items).trans (hv c2 items2).symm, _, hv c items, rfl⟩

/-- Witness for claim C8: a `[]proto.Message` slice (interface element
type) holding messages of two different concrete types is rejected, with
the same result as for the empty slice. -/
theorem marshal_slice_probe_is_static_witness :
    isProtoSliceElem wIfaceElem = false ∧
    (Marshal wCodec (.slice wIfaceElem [.msg wMsg, .msg wMsgB]) =
      Marshal wCodec (.slice wIfaceElem []) ∧
    ∃ e, Marshal wCodec (.slice wIfaceElem [.msg wMsg, .msg wMsgB]) = .error e ∧
      errIs e (.sentinel .invalidInput) = true) :=
  ⟨rfl, marshal_slice_probe_is_static wCodec wCodec wIfaceElem
    [.msg wMsg, .msg wMsgB] [] rfl⟩

theorem marshalSliceLoop_error_at (c : Codec) (bad : GoVal)
    (rest : List GoVal) (e : GoError)
    (hbad : marshalProtoMessage c bad = .error e) :
    ∀ (pre : List GoVal) (i : Nat),
      (∀ x ∈ pre, ∃ m, marshalProtoMessage c x = .ok m) →
      marshalSliceLoop c i (pre ++ bad :: rest) =
        .error (.wrapIdx (.sentinel .failedToMarshal) (i + pre.length) e) := by
  intro pre
  induction pre with
  | nil => intro i _; simp [marshalSliceLoop, hbad]
  | cons x xs ih =>
    intro i hpre
    obtain ⟨m, hm⟩ := hpre x (List.mem_cons_self x xs)
    have h2 := ih (i + 1) (fun y hy => hpre y (List.mem_cons_of_mem x hy))
    have h3 : i + 1 + xs.length = i + (x :: xs).length := by
      simp only [List.length_cons]; omega
    rw [h3] at h2
    simp [marshalSliceLoop, hm, h2]

/-- Claim C4: when some element of a proto slice fails to convert,
`Marshal` returns an error (no partial result at all) wrapping the index
of the first failing element, provided every earlier element converts. -/
theorem marshal_slice_fails_at_first_failing_index
    (c : Codec) (elem : SliceElemType) (pre : List GoVal) (bad : GoVal)
    (rest : List GoVal) (e : GoError)
    (hElem : isProtoSliceElem elem = true)
    (hpre : ∀ x ∈ pre, ∃ m, marshalProtoMessage c x = .ok m)
    (hbad : marshalProtoMessage c bad = .error e) :
    Marshal c (.slice elem (pre ++ bad :: rest)) =
      .error (.wrapIdx (.sentinel .failedToMarshal) pre.length e) := by
  have h := marshalSliceLoop_error_at c bad rest e hbad pre 0 hpre
  simp only [Nat.zero_add] at h
  simp [Marshal, marshalProtoSlice, hElem, h]

/-- Witness for claim C4: a three-element slice whose middle element fails
to convert is rejected with the index 1 wrapped in the error. -/
theorem marshal_slice_fails_at_first_failing_index_witness :
    isProtoSliceElem wElem = true ∧
    (∀ x ∈ [GoVal.msg wMsg], ∃ m, marshalProtoMessage pfCodec x = .ok m) ∧
    marshalProtoMessage pfCodec (.msg wMsgB) =
      .error (.wrap2 (.sentinel .failedToMarshal) (.external "proto: boom") "") ∧
    Marshal pfCodec (.slice wElem [.msg wMsg, .msg wMsgB, .msg wMsg]) =
      .error (.wrapIdx (.sentinel .failedToMarshal) 1
        (.wrap2 (.sentinel .failedToMarshal) (.external "proto: boom") "")) := by
  refine ⟨rfl, ?_, rfl, ?_⟩
  · intro x hx
    rw [List.mem_singleton.mp hx]
    exact ⟨wMap, rfl⟩
  · exact marshal_slice_fails_at_first_failing_index pfCodec wElem
      [.msg wMsg] (.msg wMsgB) [.msg wMsg] _ rfl
      (by intro x hx; rw [List.mem_singleton.mp hx]; exact ⟨wMap, rfl⟩) rfl

theorem marshalProtoMessage_error_wraps (c : Codec) (v : GoVal) (e : GoError)
    (h : marshalProtoMessage c v = .error e) :
    errIs e (.sentinel .failedToMarshal) = true := by
  cases v with
  | msg m =>
    simp only [marshalProtoMessage] at h
    split at h
    · cases h; rfl
    · split at h
      · cases h; rfl
      · split at h
        · cases h; rfl
        · cases h
  | nonMsg tn => cases h; rfl
  | slice elem items => cases h; rfl

theorem marshalSliceLoop_error_wraps (c : Codec) :
    ∀ (items : List GoVal) (i : Nat) (e : GoError),
      marshalSliceLoop c i items = .error e →
      errIs e (.sentinel .failedToMarshal) = true := by
  intro items
  induction items with
  | nil => intro i e h; cases h
  | cons x xs ih =>
    intro i e h
    simp only [marshalSliceLoop] at h
    split at h
    · cases h; rfl
    · split at h
      · rename_i e heq
        cases h
        exact ih (i + 1) e heq
      · cases h

theorem avMapSliceLoop_error_wraps (c : Codec) :
    ∀ (ms : List AttrMap) (e : GoError),
      avMapSliceLoop c ms = .error e →
      errIs e (.sentinel .failedToUnmarshal) = true := by
  intro ms
  induction ms with
  | nil => intro e h; cases h
  | cons m rest ih =>
    intro e h
    simp only [avMapSliceLoop] at h
    split at h
    · cases h; rfl
    · split at h
      · rename_i e heq
        cases h
        exact ih e heq
      · cases h

theorem avToIntermediate_error_wraps (c : Codec) (av : AttrInput)
    (isSlice : Bool) (tn : String) (e : GoError)
    (h : avToIntermediate c av isSlice tn = .error e) :
    errIs e (.sentinel .failedToUnmarshal) = true := by
  cases av with
  | single a =>
    simp only [avToIntermediate] at h
    split at h
    · cases h; rfl
    · cases h
  | map m =>
    simp only [avToIntermediate] at h
    split at h
    · cases h; rfl
    · cases h
  | mapSlice ms =>
    simp only [avToIntermediate] at h
    cases isSlice with
    | false => simp only [Bool.false_eq_true, if_false] at h; cases h; rfl
    | true =>
      simp only [if_true] at h
      split at h
      · rename_i e heq
        cases h
        exact avMapSliceLoop_error_wraps c ms e heq
      · cases h
  | other tn2 => cases h; rfl

/-- Claim C7: every error returned by `Marshal` wraps the top-level
`FailedToMarshal` sentinel, and every error returned by `Unmarshal` wraps
the top-level `FailedToUnmarshal` sentinel, on every failure path. -/
theorem pipeline_errors_wrap_top_level (c : Codec) (v : GoVal)
    (av : AttrInput) (d : GoDest) :
    (∀ e, Marshal c v = .error e →
      errIs e (.sentinel .failedToMarshal) = true) ∧
    (∀ d2 e, Unmarshal c av d = (d2, some e) →
      errIs e (.sentinel .failedToUnmarshal) = true) := by
  constructor
  · intro e h
    cases v with
    | slice elem items =>
      simp only [Marshal] at h
      split at h
      · rename_i e heq
        cases h
        simp only [marshalProtoSlice] at heq
        cases he : isProtoSliceElem elem with
        | false =>
          simp only [he, Bool.false_eq_true, if_false] at heq
          cases heq; rfl
        | true =>
          simp only [he, if_true] at heq
          exact marshalSliceLoop_error_wraps c items 0 e heq
      · cases h
    | msg m =>
      simp only [Marshal] at h
      split at h
      · rename_i e heq
        cases h
        exact marshalProtoMessage_error_wraps c _ e heq
      · cases h
    | nonMsg tn =>
      simp only [Marshal] at h
      split at h
      · rename_i e heq
        cases h
        exact marshalProtoMessage_error_wraps c _ e heq
      · cases h
  · intro d2 e h
    cases d with
    | nonPtr tn => cases h; rfl
    | ptrOther tn => cases h; rfl
    | ptrMsg m =>
      simp only [Unmarshal] at h
      split at h
      · rename_i e heq
        cases h
        exact avToIntermediate_error_wraps c av false m.typeName e heq
      · split at h
        · cases h; rfl
        · split at h
          · cases h; rfl
          · cases h
    | ptrSlice elem items =>
      simp only [Unmarshal] at h
      cases he : isProtoSliceElem elem with
      | false => simp only [he, Bool.false_eq_true, if_false] at h; cases h; rfl
      | true =>
        simp only [he, if_true] at h
        split at h
        · rename_i e heq
          cases h
          exact avToIntermediate_error_wraps c av true _ e heq
        · split at h
          · cases h; rfl
          · split at h
            · cases h; rfl
            · cases h

/-- Witness for claim C7: a failing `Marshal` call on a non-message input
and a failing `Unmarshal` call on an unsupported attribute input. -/
theorem pipeline_errors_wrap_top_level_witness :
    errIs (.wrap2 (.sentinel .failedToMarshal) (.sentinel .invalidInput) "int")
      (.sentinel .failedToMarshal) = true ∧
    errIs (.wrap2 (.sentinel .failedToUnmarshal) (.sentinel .invalidOutput)
        ("unsupported type: " ++ "*example.User"))
      (.sentinel .failedToUnmarshal) = true :=
  ⟨(pipeline_errors_wrap_top_level wCodec (.nonMsg "int") (.other "int")
      (.ptrMsg wMsg0)).1 _ rfl,
   (pipeline_errors_wrap_top_level wCodec (.nonMsg "int") (.other "int")
      (.ptrMsg wMsg0)).2 _ _ rfl⟩

theorem marshalProtoMessage_ok (c : Codec) (r : ProtoMsg) (m : AttrMap)
    (h : encodesTo c r m) : marshalProtoMessage c (.msg r) = .ok m := by
  obtain ⟨b, d, h1, h2, h3⟩ := h
  simp [marshalProtoMessage, h1, h2, h3]

theorem marshalSliceLoop_ok (c : Codec) :
    ∀ (rs : List ProtoMsg) (ms : List AttrMap),
      List.Forall₂ (fun r m => marshalProtoMessage c (.msg r) = .ok m) rs ms →
      ∀ i, marshalSliceLoop c i (rs.map GoVal.msg) = .ok ms := by
  intro rs ms h
  induction h with
  | nil => intro i; rfl
  | cons hx _ ih =>
    intro i
    simp [marshalSliceLoop, hx, ih (i + 1)]

theorem avMapSliceLoop_ok (c : Codec) :
    ∀ (ms : List AttrMap) (ds : List Doc),
      List.Forall₂ (fun m d => c.avUnmarshalMap m = .ok d) ms ds →
      avMapSliceLoop c ms = .ok ds := by
  intro ms ds h
  induction h with
  | nil => rfl
  | cons hx _ ih => simp [avMapSliceLoop, hx, ih]

theorem mapExcept_ok (f : Doc → Except GoError String) :
    ∀ (ds : List Doc) (ss : List String),
      List.Forall₂ (fun d s => f d = .ok s) ds ss →
      mapExcept f ds = .ok ss := by
  intro ds ss h
  induction h with
  | nil => rfl
  | cons hx _ ih => simp [mapExcept, hx, ih]

theorem protoSliceLoop_ok (c : Codec) (tn : String) :
    ∀ (ss : List String) (rs : List ProtoMsg),
      List.Forall₂ (fun s r => c.protojsonUnmarshal s tn = .ok r) ss rs →
      ∀ acc, protoSliceLoop c tn acc ss = (acc ++ rs, none) := by
  intro ss rs h
  induction h with
  | @cons s r ss2 rs2 hx _ ih =>
    intro acc
    simp [protoSliceLoop, hx, ih (acc ++ [r])]
  | nil => intro acc; simp [protoSliceLoop]

theorem forall2_decode_chain (c : Codec) (tn : String) :
    ∀ (ms : List AttrMap) (rs : List ProtoMsg),
      List.Forall₂ (fun m r => decodesTo c tn m r) ms rs →
      ∃ ds ss, List.Forall₂ (fun m d => c.avUnmarshalMap m = .ok d) ms ds ∧
        List.Forall₂ (fun d s => c.jsonMarshalDoc d = .ok s) ds ss ∧
        List.Forall₂ (fun s r => c.protojsonUnmarshal s tn = .ok r) ss rs := by
  intro ms rs h
  induction h with
  | nil => exact ⟨[], [], .nil, .nil, .nil⟩
  | cons hx _ ih =>
    obtain ⟨ds, ss, h1, h2, h3⟩ := ih
    obtain ⟨d, s, hd, hs, hr⟩ := hx
    exact ⟨d :: ds, s :: ss, .cons hd h1, .cons hs h2, .cons hr h3⟩

theorem unmarshal_mapSlice_ok (c : Codec) (elem : SliceElemType)
    (init rs : List ProtoMsg) (ms : List AttrMap)
    (hElem : isProtoSliceElem elem = true)
    (h : List.Forall₂ (fun m r => decodesTo c elem.pointeeName m r) ms rs) :
    Unmarshal c (.mapSlice ms) (.ptrSlice elem init) =
      (.ptrSlice elem (init ++ rs), none) := by
  obtain ⟨ds, ss, ha, hb, hc⟩ := forall2_decode_chain c elem.pointeeName ms rs h
  have hloop := protoSliceLoop_ok c elem.pointeeName ss rs hc init
  simp [Unmarshal, hElem, avToIntermediate, avMapSliceLoop_ok c ms ds ha,
    jsonMarshalIntermediate, mapExcept_ok _ ds ss hb,
    unmarshalJSONToProtoSlice, jsonUnmarshalRawSlice, hloop]

/-- Claim C1: when the canonical-document mapping is lossless for a record
(as witnessed stage by stage through the external codecs), unmarshaling the
result of `Marshal` into a fresh destination of the matching shape succeeds
and reproduces the record; and likewise for an ordered collection,
element-wise and order-preserving. -/
theorem marshal_unmarshal_roundtrip (c : Codec) (r r0 : ProtoMsg) (m : AttrMap)
    (elem : SliceElemType) (rs : List ProtoMsg) (ms : List AttrMap)
    (h1 : losslessFor c r0.typeName r m)
    (hElem : isProtoSliceElem elem = true)
    (h2 : List.Forall₂ (fun ri mi => losslessFor c elem.pointeeName ri mi) rs ms) :
    Marshal c (.msg r) = .ok (.one m) ∧
    Unmarshal c (.map m) (.ptrMsg r0) = (.ptrMsg r, none) ∧
    Marshal c (.slice elem (rs.map GoVal.msg)) = .ok (.many ms) ∧
    Unmarshal c (.mapSlice ms) (.ptrSlice elem []) = (.ptrSlice elem rs, none) := by
  obtain ⟨henc, hdec⟩ := h1
  refine ⟨?_, ?_, ?_, ?_⟩
  · simp [Marshal, marshalProtoMessage_ok c r m henc]
  · obtain ⟨d, s, hd, hs, hr⟩ := hdec
    simp [Unmarshal, avToIntermediate, jsonMarshalIntermediate, hd, hs,
      IntermediateBytes.text, hr]
  · have hl := marshalSliceLoop_ok c rs ms
      (h2.imp (fun _ _ h => marshalProtoMessage_ok c _ _ h.1)) 0
    simp [Marshal, marshalProtoSlice, hElem, hl]
  · have hdecs : List.Forall₂
        (flip (fun m r => decodesTo c elem.pointeeName m r)) rs ms :=
      h2.imp (fun _ _ h => h.2)
    have := unmarshal_mapSlice_ok c elem [] rs ms hElem hdecs.flip
    simpa using this

/-- Witness for claim C1 on the concrete codec `wCodec`, the record `wMsg`,
the attribute map `wMap`, and the one-element collection `[wMsg]`. -/
theorem marshal_unmarshal_roundtrip_witness :
    losslessFor wCodec wMsg0.typeName wMsg wMap ∧
    isProtoSliceElem wElem = true ∧
    (Marshal wCodec (.msg wMsg) = .ok (.one wMap) ∧
    Unmarshal wCodec (.map wMap) (.ptrMsg wMsg0) = (.ptrMsg wMsg, none) ∧
    Marshal wCodec (.slice wElem ([wMsg].map GoVal.msg)) = .ok (.many [wMap]) ∧
    Unmarshal wCodec (.mapSlice [wMap]) (.ptrSlice wElem []) =
      (.ptrSlice wElem [wMsg], none)) :=
  have hl : losslessFor wCodec wMsg0.typeName wMsg wMap :=
    ⟨⟨"objA", wDoc, rfl, rfl, rfl⟩, ⟨wDoc, "objA", rfl, rfl, rfl⟩⟩
  have hl2 : losslessFor wCodec wElem.pointeeName wMsg wMap :=
    ⟨⟨"objA", wDoc, rfl, rfl, rfl⟩, ⟨wDoc, "objA", rfl, rfl, rfl⟩⟩
  ⟨hl, rfl, marshal_unmarshal_roundtrip wCodec wMsg wMsg0 wMap wElem [wMsg] [wMap]
    hl rfl (.cons hl2 .nil)⟩

/-- Claim C9: a successful collection decode appends the decoded records to
the destination slice: prior elements are unchanged and keep their
positions, and the final length is the prior length plus the number of
attribute maps. -/
theorem unmarshal_slice_appends (c : Codec) (elem : SliceElemType)
    (init rs : List ProtoMsg) (ms : List AttrMap)
    (hElem : isProtoSliceElem elem = true)
    (h : List.Forall₂ (fun m r => decodesTo c elem.pointeeName m r) ms rs) :
    Unmarshal c (.mapSlice ms) (.ptrSlice elem init) =
      (.ptrSlice elem (init ++ rs), none) ∧
    (init ++ rs).length = init.length + ms.length ∧
    ∀ i, i < init.length → (init ++ rs)[i]? = init[i]? := by
  refine ⟨unmarshal_mapSlice_ok c elem init rs ms hElem h, ?_, ?_⟩
  · simp [List.length_append, h.length_eq]
  · intro i hi
    exact List.getElem?_append_left hi

/-- Witness for claim C9: decoding two attribute maps into a destination
already holding one record appends the two decoded records after it. -/
theorem unmarshal_slice_appends_witness :
    isProtoSliceElem wElem = true ∧
    (Unmarshal wCodec (.mapSlice [wMap, wMap]) (.ptrSlice wElem [wMsg0]) =
      (.ptrSlice wElem ([wMsg0] ++ [wMsg, wMsg]), none) ∧
    ([wMsg0] ++ [wMsg, wMsg]).length = [wMsg0].length + [wMap, wMap].length ∧
    ∀ i, i < [wMsg0].length →
      ([wMsg0] ++ [wMsg, wMsg])[i]? = [wMsg0][i]?) :=
  have hd : decodesTo wCodec wElem.pointeeName wMap wMsg :=
    ⟨wDoc, "objA", rfl, rfl, rfl⟩
  ⟨rfl, unmarshal_slice_appends wCodec wElem [wMsg0] [wMsg, wMsg] [wMap, wMap]
    rfl (.cons hd (.cons hd .nil))⟩

/-- Counterexample to claim C2 as stated: on `jfCodec` the conversion into
the canonical intermediate stage of `Marshal` fails, yet the returned error
does not wrap `FailedToMarshalIntermediary` — it wraps
`FailedToUnmarshalIntermediary` instead. -/
theorem marshal_intermediary_sentinel_counterexample :
    jfCodec.jsonUnmarshalMap "objA" = .error (.external "invalid character") ∧
    Marshal jfCodec (.msg wMsg) = .error cxErr2 ∧
    errIs cxErr2 (.sentinel .failedToMarshalIntermediary) = false ∧
    errIs cxErr2 (.sentinel .failedToUnmarshalIntermediary) = true :=
  ⟨rfl, rfl, rfl, rfl⟩

/-- Claim C2 amended: when the conversion into the canonical intermediate
stage fails during `Marshal`, the returned error wraps `FailedToMarshal`
together with `FailedToUnmarshalIntermediary` — not
`FailedToMarshalIntermediary` (provided the underlying codec error does not
itself carry that sentinel, as no external error does). -/
theorem marshal_intermediary_failure_wraps (c : Codec) (r : ProtoMsg)
    (b : String) (e0 : GoError)
    (h1 : c.protojsonMarshal r = .ok b)
    (h2 : c.jsonUnmarshalMap b = .error e0)
    (h3 : errIs e0 (.sentinel .failedToMarshalIntermediary) = false) :
    Marshal c (.msg r) =
      .error (.wrap3 (.sentinel .failedToMarshal)
        (.sentinel .failedToUnmarshalIntermediary) e0) ∧
    errIs (.wrap3 (.sentinel .failedToMarshal)
        (.sentinel .failedToUnmarshalIntermediary) e0)
      (.sentinel .failedToMarshal) = true ∧
    errIs (.wrap3 (.sentinel .failedToMarshal)
        (.sentinel .failedToUnmarshalIntermediary) e0)
      (.sentinel .failedToUnmarshalIntermediary) = true ∧
    errIs (.wrap3 (.sentinel .failedToMarshal)
        (.sentinel .failedToUnmarshalIntermediary) e0)
      (.sentinel .failedToMarshalIntermediary) = false := by
  refine ⟨?_, rfl, rfl, ?_⟩
  · simp [Marshal, marshalProtoMessage, h1, h2]
  · exact h3

/-- Witness for the amended claim C2 on `jfCodec` at the record `wMsg`. -/
theorem marshal_intermediary_failure_wraps_witness :
    jfCodec.protojsonMarshal wMsg = .ok "objA" ∧
    jfCodec.jsonUnmarshalMap "objA" = .error (.external "invalid character") ∧
    errIs (.external "invalid character")
      (.sentinel .failedToMarshalIntermediary) = false ∧
    (Marshal jfCodec (.msg wMsg) =
      .error (.wrap3 (.sentinel .failedToMarshal)
        (.sentinel .failedToUnmarshalIntermediary)
        (.external "invalid character")) ∧
    errIs (.wrap3 (.sentinel .failedToMarshal)
        (.sentinel .failedToUnmarshalIntermediary)
        (.external "invalid character"))
      (.sentinel .failedToMarshal) = true ∧
    errIs (.wrap3 (.sentinel .failedToMarshal)
        (.sentinel .failedToUnmarshalIntermediary)
        (.external "invalid character"))
      (.sentinel .failedToUnmarshalIntermediary) = true ∧
    errIs (.wrap3 (.sentinel .failedToMarshal)
        (.sentinel .failedToUnmarshalIntermediary)
        (.external "invalid character"))
      (.sentinel .failedToMarshalIntermediary) = false) :=
  ⟨rfl, rfl, rfl, marshal_intermediary_failure_wraps jfCodec wMsg "objA"
    (.external "invalid character") rfl rfl rfl⟩

/-- Counterexample to claim C3 as stated: a single attribute map decoded
into a pointer to a record collection is not rejected as `InvalidOutput`;
the attribute decode is attempted and the call fails at the intermediary
stage instead. -/
theorem unmarshal_shape_mismatch_counterexample :
    Unmarshal wCodec (.map wMap) (.ptrSlice wElem []) =
      (.ptrSlice wElem [], some cxErr3) ∧
    errIs cxErr3 (.sentinel .invalidOutput) = false ∧
    errIs cxErr3 (.sentinel .failedToUnmarshalIntermediary) = true :=
  ⟨rfl, rfl, rfl⟩

/-- Claim C3 amended: a sequence of attribute maps with a single-record
destination is rejected as `InvalidOutput` before any decoding, with the
destination untouched; in the converse mismatch — a single attribute map
with a collection destination — the call also fails and leaves the
destination unchanged, but only after attempting the attribute decode, and
the error is classified `FailedToUnmarshalIntermediary`, not
`InvalidOutput`. -/
theorem unmarshal_shape_mismatch (c : Codec) (ms : List AttrMap)
    (r0 : ProtoMsg) (m : AttrMap) (elem : SliceElemType)
    (items : List ProtoMsg) (d : Doc) (s : String)
    (hElem : isProtoSliceElem elem = true)
    (hav : c.avUnmarshalMap m = .ok d)
    (hjm : c.jsonMarshalDoc d = .ok s) :
    (∃ e, Unmarshal c (.mapSlice ms) (.ptrMsg r0) = (.ptrMsg r0, some e) ∧
      errIs e (.sentinel .invalidOutput) = true) ∧
    (∃ e, Unmarshal c (.map m) (.ptrSlice elem items) =
        (.ptrSlice elem items, some e) ∧
      errIs e (.sentinel .failedToUnmarshalIntermediary) = true ∧
      errIs e (.sentinel .invalidOutput) = false) := by
  constructor
  · exact ⟨_, rfl, rfl⟩
  · refine ⟨.wrap3 (.sentinel .failedToUnmarshal)
      (.sentinel .failedToUnmarshalIntermediary)
      (.external
        "json: cannot unmarshal object into Go value of type []json.RawMessage"),
      ?_, rfl, rfl⟩
    simp [Unmarshal, hElem, avToIntermediate, hav, jsonMarshalIntermediate,
      hjm, unmarshalJSONToProtoSlice, jsonUnmarshalRawSlice]

/-- Witness for the amended claim C3 on `wCodec` with concrete shapes on
both sides of the mismatch. -/
theorem unmarshal_shape_mismatch_witness :
    isProtoSliceElem wElem = true ∧
    wCodec.avUnmarshalMap wMap = .ok wDoc ∧
    wCodec.jsonMarshalDoc wDoc = .ok "objA" ∧
    ((∃ e, Unmarshal wCodec (.mapSlice [wMap]) (.ptrMsg wMsg0) =
        (.ptrMsg wMsg0, some e) ∧
      errIs e (.sentinel .invalidOutput) = true) ∧
    (∃ e, Unmarshal wCodec (.map wMap) (.ptrSlice wElem []) =
        (.ptrSlice wElem [], some e) ∧
      errIs e (.sentinel .failedToUnmarshalIntermediary) = true ∧
      errIs e (.sentinel .invalidOutput) = false)) :=
  ⟨rfl, rfl, rfl, unmarshal_shape_mismatch wCodec [wMap] wMsg0 wMap wElem []
    wDoc "objA" rfl rfl rfl⟩

end Dynabuf
